import Mathlib

/-!
Verification of the RTMP handshake negotiator and chunk-stream encoder
of the rtmpy project, shallowly embedded from `rtmpy/protocol/handshake.py`
and (for the encoder, whose source is absent) the specification.

Bytes are modelled as natural numbers (each byte `< 256` where produced by
the encoder); byte strings are lists of naturals.  The mutable
`BufferedByteStream` accumulator is modelled by the list of its unread
bytes: `append` adds at the tail, a successful packet decode followed by
`consume()` drops `HANDSHAKE_LENGTH` bytes from the front, and both
`remaining()` and `getvalue()` after a consume correspond to the list
itself.
-/

namespace RTMPy

/-- `HANDSHAKE_LENGTH` from `handshake.py`. -/
def HANDSHAKE_LENGTH : Nat := 1536

/-- `BufferedByteStream.write_ulong`: big-endian encoding of a 32-bit
unsigned integer as four bytes. -/
def write_ulong (n : Nat) : List Nat :=
  [n / 2 ^ 24 % 256, n / 2 ^ 16 % 256, n / 2 ^ 8 % 256, n % 256]

/-- `BufferedByteStream.read_ulong`: big-endian decoding of a 32-bit
unsigned integer from the first four bytes of the stream. -/
def read_ulong : List Nat → Nat
  | b0 :: b1 :: b2 :: b3 :: _ => ((b0 * 256 + b1) * 256 + b2) * 256 + b3
  | _ => 0

/-- `Packet` from `handshake.py`.  In the source every field may be `None`
(`__init__` stores whatever it is given and sets `payload = None`), so each
field is an `Option`. -/
@[ext]
structure Packet where
  uptime : Option Nat
  version : Option Nat
  payload : Option (List Nat)
  deriving Repr, DecidableEq

/-- `Packet.encode`: writes uptime and version as big-endian u32 then the
payload verbatim.  Encoding fails (`none`) when a field is still `None`
(pyamf raises writing `None`) or a value does not fit 32 bits
(`write_ulong` raises `OverflowError`). -/
def Packet.encodeBytes (p : Packet) : Option (List Nat) :=
  match p.uptime, p.version, p.payload with
  | some u, some v, some pl =>
      if u < 2 ^ 32 ∧ v < 2 ^ 32 then
        some (write_ulong u ++ write_ulong v ++ pl)
      else
        none
  | _, _, _ => none

/-- `Packet.decode`: reads a u32 uptime, a u32 version and then
`HANDSHAKE_LENGTH - 8` payload bytes from the head of the stream.  The
caller (`getPeerPacket`) guarantees at least `HANDSHAKE_LENGTH` bytes are
available. -/
def decodePacket (buf : List Nat) : Packet :=
  { uptime := some (read_ulong buf)
    version := some (read_ulong (buf.drop 4))
    payload := some ((buf.drop 8).take (HANDSHAKE_LENGTH - 8)) }

/-! ## The negotiator state machine

`BaseNegotiator` and its two subclasses from `handshake.py`.  A negotiator
is a mutable object; we model one as a `NegState` record.  A method that
may raise returns `NegState × Option HSError`: the state the object holds
when the method returns or when the exception propagates, and the raised
error if any.  The shipped `ClientNegotiator` inherits the abstract
`buildSynPayload`/`buildAckPayload` (which raise `NotImplementedError`);
`ServerNegotiator` implements both by filling in generated bytes.  The
`synImpl`/`ackImpl` flags record whether the concrete class implements the
respective hook, and `gen`/`genIdx` supply the successive generated
payloads (`_generate_payload` is random; the model takes the stream of
generated values as a parameter). -/

/-- The role of a negotiator: `ClientNegotiator` or `ServerNegotiator`. -/
inductive Role
  | client
  | server
  deriving Repr, DecidableEq

/-- The exceptions the handshake code can raise. -/
inductive HSError
  | handshakeError (msg : String)
  | verificationError (msg : String)
  | notImplementedError
  | encodeError
  | attrError
  deriving Repr, DecidableEq

/-- Is this error a `VerificationError` (the subtype of `HandshakeError`)? -/
def HSError.isVerification : HSError → Bool
  | .verificationError _ => true
  | _ => false

/-- The state of one negotiator object. `writes` collects the byte strings
written to the transport, `successes` the arguments of the
`observer.handshakeSuccess` calls, both in order. -/
structure NegState where
  role : Role
  synImpl : Bool
  ackImpl : Bool
  started : Bool
  buffer : List Nat
  my_syn : Option Packet
  my_ack : Option Packet
  peer_syn : Option Packet
  peer_ack : Option Packet
  peer_version : Option Nat
  writes : List (List Nat)
  successes : List (List Nat)
  gen : Nat → List Nat
  genIdx : Nat

/-- `BaseNegotiator._writePacket`: encode the packet to a fresh stream and
write the bytes to the transport. -/
def writePacket (s : NegState) (p : Packet) : NegState × Option HSError :=
  match p.encodeBytes with
  | some bs => ({ s with writes := s.writes ++ [bs] }, none)
  | none => (s, some .encodeError)

/-- Store `ack0` as `my_ack`, run `buildAckPayload(my_ack)` (fills in the
next generated payload, or raises `NotImplementedError` when the class does
not implement the hook), then `writeAck`. -/
def fillAndWriteAck (s : NegState) (ack0 : Packet) : NegState × Option HSError :=
  if s.ackImpl then
    let ack1 : Packet := { ack0 with payload := some (s.gen s.genIdx) }
    writePacket { s with my_ack := some ack1, genIdx := s.genIdx + 1 } ack1
  else
    ({ s with my_ack := some ack0 }, some .notImplementedError)

/-- The `synReceived` hook: a no-op for the client; the server builds
`my_ack = Packet(peer_syn.uptime, my_syn.uptime)`, fills its payload and
writes it. -/
def synReceivedHook (s : NegState) : NegState × Option HSError :=
  match s.role with
  | .client => (s, none)
  | .server =>
    match s.peer_syn, s.my_syn with
    | some ps, some ms => fillAndWriteAck s ⟨ps.uptime, ms.uptime, none⟩
    | _, _ => (s, some .attrError)

/-- The `ackReceived` hook.  The client first rejects trailing unconsumed
bytes (plain `HandshakeError`), then checks the echoed uptime and payload
against `my_syn` (`VerificationError`), then builds
`my_ack = Packet(peer_syn.uptime, my_syn.version)`, fills it and writes
it.  The server only checks `my_syn.uptime`/`my_syn.payload` against the
peer ack. -/
def ackReceivedHook (s : NegState) : NegState × Option HSError :=
  match s.role with
  | .client =>
    if s.buffer.length ≠ 0 then
      (s, some (.handshakeError "Unexpected trailing data after peer ack"))
    else
      match s.peer_ack, s.my_syn with
      | some pa, some ms =>
        if pa.uptime ≠ ms.uptime then
          (s, some (.verificationError "Received uptime is not the same"))
        else if pa.payload ≠ ms.payload then
          (s, some (.verificationError "Received payload is not the same"))
        else
          match s.peer_syn with
          | some psyn => fillAndWriteAck s ⟨psyn.uptime, ms.version, none⟩
          | none => (s, some .attrError)
      | _, _ => (s, some .attrError)
  | .server =>
    match s.my_syn, s.peer_ack with
    | some ms, some pa =>
      if ms.uptime ≠ pa.uptime then
        (s, some (.verificationError "Received uptime is not the same"))
      else if ms.payload ≠ pa.payload then
        (s, some (.verificationError "Received payload does not match"))
      else
        (s, none)
    | _, _ => (s, some .attrError)

/-- The tail of `_process`: `observer.handshakeSuccess(buffer.getvalue())`. -/
def finishSuccess (s : NegState) : NegState :=
  { s with successes := s.successes ++ [s.buffer] }

/-- The second half of `_process`: decode the peer ack if it is missing
(waiting for more data when fewer than `HANDSHAKE_LENGTH` bytes are
buffered), run `ackReceived`, then report success. -/
def processAck (s : NegState) : NegState × Option HSError :=
  match s.peer_ack with
  | some _ => (finishSuccess s, none)
  | none =>
    if s.buffer.length < HANDSHAKE_LENGTH then
      (s, none)
    else
      let s1 := { s with peer_ack := some (decodePacket s.buffer),
                         buffer := s.buffer.drop HANDSHAKE_LENGTH }
      match ackReceivedHook s1 with
      | (s2, some e) => (s2, some e)
      | (s2, none) => (finishSuccess s2, none)

/-- `BaseNegotiator._process`: decode the peer syn if it is missing, run
`synReceived`, then continue with the ack stage. -/
def process (s : NegState) : NegState × Option HSError :=
  match s.peer_syn with
  | some _ => processAck s
  | none =>
    if s.buffer.length < HANDSHAKE_LENGTH then
      (s, none)
    else
      let s1 := { s with peer_syn := some (decodePacket s.buffer),
                         buffer := s.buffer.drop HANDSHAKE_LENGTH }
      match synReceivedHook s1 with
      | (s2, some e) => (s2, some e)
      | (s2, none) => processAck s2

/-- `BaseNegotiator.dataReceived`: raise when not started, otherwise append
the data to the buffer and run `_process`. -/
def dataReceived (s : NegState) (d : List Nat) : NegState × Option HSError :=
  if s.started then
    process { s with buffer := s.buffer ++ d }
  else
    (s, some (.handshakeError "Data was received, but negotiator was not started"))

/-- `BaseNegotiator.start`: raise when already started, otherwise reset all
state, build `my_syn = Packet(uptime, version)` (the arguments default to
`None` in the source), run `buildSynPayload(my_syn)` and write the syn. -/
def start (s : NegState) (uptime version : Option Nat) : NegState × Option HSError :=
  if s.started then
    (s, some (.handshakeError "Handshake negotiator cannot be restarted"))
  else
    let s1 := { s with started := true, buffer := [], peer_version := none,
                       my_syn := some ⟨uptime, version, none⟩, my_ack := none,
                       peer_syn := none, peer_ack := none }
    if s1.synImpl then
      let syn : Packet := ⟨uptime, version, some (s1.gen s1.genIdx)⟩
      writePacket { s1 with my_syn := some syn, genIdx := s1.genIdx + 1 } syn
    else
      (s1, some .notImplementedError)

/-- A freshly constructed negotiator (`BaseNegotiator.__init__`). -/
def mkNegotiator (r : Role) (synI ackI : Bool) (gen : Nat → List Nat) : NegState :=
  { role := r, synImpl := synI, ackImpl := ackI, started := false, buffer := [],
    my_syn := none, my_ack := none, peer_syn := none, peer_ack := none,
    peer_version := none, writes := [], successes := [], gen := gen, genIdx := 0 }

/-- The shipped `ClientNegotiator`: neither payload hook is implemented. -/
def mkClient (gen : Nat → List Nat) : NegState :=
  mkNegotiator .client false false gen

/-- The shipped `ServerNegotiator`: both payload hooks implemented. -/
def mkServer (gen : Nat → List Nat) : NegState :=
  mkNegotiator .server true true gen

/-- Deliver a list of byte strings by successive `dataReceived` calls; a
raised error aborts the connection, so later chunks are not delivered. -/
def deliver (s : NegState) : List (List Nat) → NegState × Option HSError
  | [] => (s, none)
  | d :: ds =>
    match dataReceived s d with
    | (s1, none) => deliver s1 ds
    | (s1, some e) => (s1, some e)

/-- Forget the record of `handshakeSuccess` notifications, keeping every
other component (peer packets, buffer, transport writes, ...). -/
def eraseSuccesses (r : NegState × Option HSError) : NegState × Option HSError :=
  ({ r.1 with successes := [] }, r.2)

/-! ## The chunk-stream encoder

Modelled from the spec: the source of `rtmpy.rtmp.codec` (the `Encoder`
and `ChannelContext` classes) is not in the repository snapshot; only its
tests are.  The definitions below follow the specification's description
of per-channel send buffering and channel activation, and agree with the
behaviour asserted by `rtmpy/tests/codec/test_encoder.py`.  Channels are
identified by natural numbers. -/

/-- Modelled from the spec: `ChannelContext` (source absent) — the
per-channel encoding state: the bytes awaiting transmission (the unread
part of its `BufferedByteStream`) and the activity flag. -/
structure ChannelContext where
  buffer : List Nat
  active : Bool
  deriving Repr, DecidableEq

/-- Modelled from the spec: `Encoder` (source absent) — `contexts` is the
`channelContext` mapping from channels to their contexts, `activeChannels`
the set of currently active channels. -/
structure Encoder where
  contexts : Nat → Option ChannelContext
  activeChannels : Finset Nat

/-- Modelled from the spec: `Encoder.activateChannel` (source absent) —
fails with the documented `RuntimeError` message for a channel absent from
`channelContext`, otherwise adds the channel to the active set
(idempotently). -/
def activateChannel (e : Encoder) (c : Nat) : Except String Encoder :=
  if (e.contexts c).isSome then
    .ok { e with activeChannels := insert c e.activeChannels }
  else
    .error "Attempted to activate a non-existant channel"

/-- Modelled from the spec: `Encoder.deactivateChannel` (source absent) —
fails with the documented `RuntimeError` message for a channel absent from
`channelContext`, otherwise removes the channel from the active set
(idempotently). -/
def deactivateChannel (e : Encoder) (c : Nat) : Except String Encoder :=
  if (e.contexts c).isSome then
    .ok { e with activeChannels := e.activeChannels.erase c }
  else
    .error "Attempted to deactivate a non-existant channel"

/-- Modelled from the spec: `ChannelContext.getData` (source absent) —
reading `n` bytes from the context of channel `c`.  When fewer than `n`
bytes are buffered it returns the no-data sentinel, leaves the buffer
untouched, marks the context inactive and removes the channel from the
encoder's active set; otherwise it returns exactly the first `n` buffered
bytes, keeps the rest and changes no activity state. -/
def getData (e : Encoder) (c : Nat) (ctx : ChannelContext) (n : Nat) :
    Option (List Nat) × ChannelContext × Encoder :=
  if ctx.buffer.length < n then
    (none, { ctx with active := false },
      { e with activeChannels := e.activeChannels.erase c })
  else
    (some (ctx.buffer.take n), { ctx with buffer := ctx.buffer.drop n }, e)

/-! ## Concrete instances used by counterexamples and witnesses -/

/-- A deterministic stand-in for `_generate_payload`. -/
def genA : Nat → List Nat := fun _ => List.replicate 1528 5

/-- A syn packet on the wire: uptime 9, version 0, payload of threes. -/
def c2_syn : List Nat := write_ulong 9 ++ write_ulong 0 ++ List.replicate 1528 3

/-- An ack packet on the wire echoing `genA`'s payload and uptime 0. -/
def c2_ack : List Nat := write_ulong 0 ++ write_ulong 0 ++ List.replicate 1528 5

/-- A server negotiator after `start(0, 0)`. -/
def c2_r1 : NegState × Option HSError := start (mkServer genA) (some 0) (some 0)

/-- ... after receiving the client syn. -/
def c2_r2 : NegState × Option HSError := dataReceived c2_r1.1 c2_syn

/-- ... after receiving a valid client ack: the handshake has succeeded. -/
def c2_r3 : NegState × Option HSError := dataReceived c2_r2.1 c2_ack

/-- ... after one further (empty) `dataReceived` call. -/
def c2_r4 : NegState × Option HSError := dataReceived c2_r3.1 []

/-- The state `c2_r1` evaluates to: `mkServer` after `start(0, 0)`. -/
def c2_S1 : NegState :=
  { role := .server, synImpl := true, ackImpl := true, started := true,
    buffer := [], my_syn := some ⟨some 0, some 0, some (genA 0)⟩,
    my_ack := none, peer_syn := none, peer_ack := none, peer_version := none,
    writes := [write_ulong 0 ++ write_ulong 0 ++ genA 0], successes := [],
    gen := genA, genIdx := 1 }

/-- The state `c2_r2` evaluates to: the client syn decoded, the ack sent. -/
def c2_S2 : NegState :=
  { role := .server, synImpl := true, ackImpl := true, started := true,
    buffer := [], my_syn := some ⟨some 0, some 0, some (genA 0)⟩,
    my_ack := some ⟨some 9, some 0, some (genA 1)⟩,
    peer_syn := some ⟨some 9, some 0, some (List.replicate 1528 3)⟩,
    peer_ack := none, peer_version := none,
    writes := [write_ulong 0 ++ write_ulong 0 ++ genA 0,
               write_ulong 9 ++ write_ulong 0 ++ genA 1],
    successes := [], gen := genA, genIdx := 2 }

/-- The state `c2_r3` evaluates to: the handshake completed, one success
notification delivered (with no trailing bytes). -/
def c2_S3 : NegState :=
  { role := .server, synImpl := true, ackImpl := true, started := true,
    buffer := [], my_syn := some ⟨some 0, some 0, some (genA 0)⟩,
    my_ack := some ⟨some 9, some 0, some (genA 1)⟩,
    peer_syn := some ⟨some 9, some 0, some (List.replicate 1528 3)⟩,
    peer_ack := some ⟨some 0, some 0, some (List.replicate 1528 5)⟩,
    peer_version := none,
    writes := [write_ulong 0 ++ write_ulong 0 ++ genA 0,
               write_ulong 9 ++ write_ulong 0 ++ genA 1],
    successes := [[]], gen := genA, genIdx := 2 }

/-- A client-ack payload-mismatch input of exactly one packet: uptime
echoes `c3_state`'s syn but the payload is ones instead of zeros. -/
def c3_exact_data : List Nat := write_ulong 0 ++ write_ulong 0 ++ List.replicate 1528 1

/-- A started server negotiator awaiting the peer ack, whose syn carried
payload `genA 0`. -/
def c3_server_state : NegState :=
  { mkServer genA with
      started := true
      my_syn := some ⟨some 0, some 0, some (genA 0)⟩
      peer_syn := some ⟨some 9, some 0, some (List.replicate 1528 3)⟩
      genIdx := 1 }

/-- A started client negotiator waiting for the peer ack. -/
def c3_state : NegState :=
  { mkClient genA with
      started := true
      my_syn := some ⟨some 0, some 0, some (List.replicate 1528 0)⟩
      peer_syn := some ⟨some 9, some 0, some (List.replicate 1528 3)⟩ }

/-- An ack whose payload (ones) differs from `c3_state`'s syn payload
(zeros), followed by one trailing byte. -/
def c3_data : List Nat :=
  (write_ulong 0 ++ write_ulong 0 ++ List.replicate 1528 1) ++ [7]

/-- A started client negotiator waiting for the peer ack (C4 input). -/
def c4_state : NegState :=
  { mkClient genA with
      started := true
      my_syn := some ⟨some 2, some 0, some (List.replicate 1528 4)⟩
      peer_syn := some ⟨some 8, some 0, some (List.replicate 1528 6)⟩ }

/-- A correctly echoing ack for `c4_state` followed by one trailing byte. -/
def c4_data : List Nat :=
  (write_ulong 2 ++ write_ulong 0 ++ List.replicate 1528 4) ++ [9]

/-- An encoder with channel 0 registered and already active. -/
def encoderC8 : Encoder :=
  { contexts := fun c => if c = 0 then some ⟨[], true⟩ else none
    activeChannels := {0} }

/-- The components of a negotiator state that the role hooks never touch:
the success log, the decoded peer packets, the started flag and the
receive buffer. -/
def SameCore (s t : NegState) : Prop :=
  t.successes = s.successes ∧ t.peer_syn = s.peer_syn ∧
    t.peer_ack = s.peer_ack ∧ t.started = s.started ∧ t.buffer = s.buffer

/-- The active set an encoder operation results in, when it succeeds. -/
def activeAfter : Except String Encoder → Option (Finset Nat)
  | .ok e => some e.activeChannels
  | .error _ => none

/-- A context for channel 1 holding three buffered bytes. -/
def c9_ctx : ChannelContext := ⟨[1, 2, 3], true⟩

/-- An encoder owning `c9_ctx` for channel 1, with channel 1 active. -/
def c9_encoder : Encoder :=
  { contexts := fun c => if c = 1 then some c9_ctx else none
    activeChannels := {1} }

/-- A started server negotiator that has just decoded the client syn. -/
def c7_server : NegState :=
  { mkServer genA with
      started := true
      my_syn := some ⟨some 1, some 2, some (List.replicate 1528 5)⟩
      peer_syn := some ⟨some 9, some 3, some (List.replicate 1528 3)⟩ }

/-- A started client negotiator (of a subclass implementing
`buildAckPayload`) that has just decoded a valid peer ack. -/
def c7_client : NegState :=
  { mkNegotiator .client false true genA with
      started := true
      my_syn := some ⟨some 4, some 11, some (List.replicate 1528 0)⟩
      peer_syn := some ⟨some 12, some 0, some (List.replicate 1528 2)⟩
      peer_ack := some ⟨some 4, some 0, some (List.replicate 1528 0)⟩ }

/-! ## Theorems -/

theorem read_write_ulong (u : Nat) (rest : List Nat) (hu : u < 2 ^ 32) :
    read_ulong (write_ulong u ++ rest) = u := by
  simp only [write_ulong, read_ulong, List.cons_append, List.nil_append]
  omega

theorem write_ulong_length (u : Nat) : (write_ulong u).length = 4 := rfl

theorem wire_length (u v : Nat) (pl : List Nat) :
    (write_ulong u ++ write_ulong v ++ pl).length = 8 + pl.length := by
  simp [write_ulong]
  omega

theorem wire_drop4 (u : Nat) (rest : List Nat) :
    (write_ulong u ++ rest).drop 4 = rest := by
  simp [write_ulong]

theorem wire_drop8 (u v : Nat) (rest : List Nat) :
    (write_ulong u ++ (write_ulong v ++ rest)).drop 8 = rest := by
  simp [write_ulong]

/-- Decoding a well-formed packet image (followed by any trailing bytes)
recovers its fields. -/
theorem decode_wire (u v : Nat) (pl rest : List Nat)
    (hu : u < 2 ^ 32) (hv : v < 2 ^ 32) (hl : pl.length = 1528) :
    decodePacket ((write_ulong u ++ write_ulong v ++ pl) ++ rest) =
      ⟨some u, some v, some pl⟩ := by
  have hassoc : (write_ulong u ++ write_ulong v ++ pl) ++ rest =
      write_ulong u ++ (write_ulong v ++ (pl ++ rest)) := by
    simp [List.append_assoc]
  rw [hassoc]
  unfold decodePacket
  refine Packet.ext (congrArg some (read_write_ulong u _ hu)) ?_ ?_
  · rw [wire_drop4]
    exact congrArg some (read_write_ulong v _ hv)
  · rw [wire_drop8]
    refine congrArg some ?_
    have h28 : HANDSHAKE_LENGTH - 8 = pl.length := by rw [hl]; decide
    rw [h28, List.take_left]

theorem decode_wire0 (u v : Nat) (pl : List Nat)
    (hu : u < 2 ^ 32) (hv : v < 2 ^ 32) (hl : pl.length = 1528) :
    decodePacket (write_ulong u ++ write_ulong v ++ pl) =
      ⟨some u, some v, some pl⟩ := by
  have h := decode_wire u v pl [] hu hv hl
  rwa [List.append_nil] at h

/-- Consuming a decoded packet image from the buffer leaves the trailing
bytes. -/
theorem drop_wire (u v : Nat) (pl rest : List Nat) (hl : pl.length = 1528) :
    ((write_ulong u ++ write_ulong v ++ pl) ++ rest).drop HANDSHAKE_LENGTH =
      rest := by
  have hlen : (write_ulong u ++ write_ulong v ++ pl).length = HANDSHAKE_LENGTH := by
    rw [wire_length, hl]; decide
  rw [← hlen, List.drop_left]

theorem drop_wire0 (u v : Nat) (pl : List Nat) (hl : pl.length = 1528) :
    (write_ulong u ++ write_ulong v ++ pl).drop HANDSHAKE_LENGTH = [] := by
  have h := drop_wire u v pl [] hl
  rwa [List.append_nil] at h

/-- Two replicated payloads with different fill bytes differ. -/
theorem replicate_payload_ne : List.replicate 1528 1 ≠ List.replicate 1528 0 := by
  intro h
  have := congrArg List.head? h
  simp [List.head?] at this

/-- Claim C1: encode-then-decode round trip for handshake packets, with the
encoded image exactly 1536 bytes. -/
theorem packet_roundtrip (u v : Nat) (pl : List Nat)
    (hu : u < 2 ^ 32) (hv : v < 2 ^ 32) (hl : pl.length = 1528) :
    (Packet.encodeBytes ⟨some u, some v, some pl⟩).map
        (fun bs => (bs.length, decodePacket bs)) =
      some (1536, ⟨some u, some v, some pl⟩) := by
  simp only [Packet.encodeBytes, if_pos (And.intro hu hv), Option.map_some]
  refine congrArg some (Prod.ext ?_ ?_)
  · show (write_ulong u ++ write_ulong v ++ pl).length = 1536
    rw [wire_length, hl]
  · exact decode_wire0 u v pl hu hv hl

/-- Witness for C1 at a concrete packet. -/
theorem packet_roundtrip_witness :
    (1 : Nat) < 2 ^ 32 ∧ (2 : Nat) < 2 ^ 32 ∧
      (List.replicate 1528 7).length = 1528 ∧
      (Packet.encodeBytes ⟨some 1, some 2, some (List.replicate 1528 7)⟩).map
          (fun bs => (bs.length, decodePacket bs)) =
        some (1536, ⟨some 1, some 2, some (List.replicate 1528 7)⟩) :=
  ⟨by norm_num, by norm_num, List.length_replicate 1528 7,
    packet_roundtrip 1 2 (List.replicate 1528 7) (by norm_num) (by norm_num)
      (List.length_replicate 1528 7)⟩

/-- Claim C10: the shipped `ClientNegotiator` inherits the abstract
`buildSynPayload`, so `start` always raises `NotImplementedError` before
any syn packet is written, for every choice of arguments. -/
theorem client_start_not_implemented (gen : Nat → List Nat) (u v : Option Nat) :
    (start (mkClient gen) u v).2 = some HSError.notImplementedError ∧
      (start (mkClient gen) u v).1.writes = [] ∧
      (start (mkClient gen) u v).1.started = true := by
  simp [start, mkClient, mkNegotiator]

/-- Claim C5 evaluated at its failing input: calling `start` on a server
negotiator with both arguments omitted (`None`) does not derive uptime or
version automatically — `my_syn` keeps `None` in both fields, encoding the
syn raises, and no packet reaches the transport. -/
theorem server_start_default_none_fails (gen : Nat → List Nat) :
    (start (mkServer gen) none none).1.my_syn =
        some ⟨none, none, some (gen 0)⟩ ∧
      (start (mkServer gen) none none).2 = some HSError.encodeError ∧
      (start (mkServer gen) none none).1.writes = [] := by
  simp [start, mkServer, mkNegotiator, writePacket, Packet.encodeBytes]

/-- Claim C8, as stated, is false: for a registered channel that is
already active, `activateChannel` (idempotent) followed by
`deactivateChannel` removes the channel, so `activeChannels` is not
restored to its pre-activation state. -/
theorem activate_deactivate_no_restore :
    (encoderC8.contexts 0).isSome = true ∧
      0 ∈ encoderC8.activeChannels ∧
      activeAfter ((activateChannel encoderC8 0).bind
          (fun e1 => deactivateChannel e1 0)) = some ∅ ∧
      encoderC8.activeChannels ≠ ∅ := by
  exact ⟨rfl, by decide, by decide, by decide⟩

/-- Claim C8 (amended): activating or deactivating an unregistered channel
fails with the documented error; for a registered, currently inactive
channel, activate-then-deactivate restores the encoder exactly; for a
registered channel the pair always leaves `activeChannels.erase c` (so an
already-active channel ends up deactivated, not restored). -/
theorem channel_activation_invariants (e : Encoder) (c : Nat) :
    (e.contexts c = none →
      activateChannel e c = .error "Attempted to activate a non-existant channel" ∧
      deactivateChannel e c = .error "Attempted to deactivate a non-existant channel") ∧
    ((e.contexts c).isSome → c ∉ e.activeChannels →
      (activateChannel e c).bind (fun e1 => deactivateChannel e1 c) = .ok e) ∧
    ((e.contexts c).isSome →
      (activateChannel e c).bind (fun e1 => deactivateChannel e1 c) =
        .ok { e with activeChannels := e.activeChannels.erase c }) := by
  refine ⟨fun h => ?_, fun hs hn => ?_, fun hs => ?_⟩
  · constructor <;> simp [activateChannel, deactivateChannel, h]
  · simp only [activateChannel, deactivateChannel, if_pos hs, Except.bind]
    rw [Finset.erase_insert hn]
  · simp only [activateChannel, deactivateChannel, if_pos hs, Except.bind]
    by_cases hm : c ∈ e.activeChannels
    · rw [Finset.insert_eq_self.mpr hm]
    · rw [Finset.erase_insert hm, Finset.erase_eq_of_not_mem hm]

/-- Witness for `channel_activation_invariants` on concrete encoders. -/
theorem channel_activation_invariants_witness :
    (c9_encoder.contexts 0 = none ∧
      activateChannel c9_encoder 0 =
        .error "Attempted to activate a non-existant channel" ∧
      deactivateChannel c9_encoder 0 =
        .error "Attempted to deactivate a non-existant channel") ∧
    ((c9_encoder.contexts 2).isSome = false) ∧
    ((encoderC8.contexts 0).isSome ∧
      (activateChannel encoderC8 0).bind (fun e1 => deactivateChannel e1 0) =
        .ok { encoderC8 with activeChannels := encoderC8.activeChannels.erase 0 }) :=
  ⟨⟨rfl, ((channel_activation_invariants c9_encoder 0).1 rfl).1,
      ((channel_activation_invariants c9_encoder 0).1 rfl).2⟩,
    rfl,
    ⟨rfl, (channel_activation_invariants encoderC8 0).2.2 rfl⟩⟩

/-- Claim C9: `getData(n)` on a context with `k` buffered bytes returns
the no-data sentinel when `n > k`, leaving the buffer intact, marking the
context inactive and removing the channel from the active set; when
`n ≤ k` it returns exactly the first `n` bytes, leaves `k - n` buffered,
and keeps the context active and the active set unchanged. -/
theorem getData_exhaustion (e : Encoder) (c : Nat) (ctx : ChannelContext)
    (n k : Nat) (hk : ctx.buffer.length = k) (hactive : ctx.active = true)
    (hmem : c ∈ e.activeChannels) :
    (k < n →
      getData e c ctx n =
        (none, { ctx with active := false },
          { e with activeChannels := e.activeChannels.erase c }) ∧
      ({ ctx with active := false } : ChannelContext).buffer = ctx.buffer ∧
      c ∉ e.activeChannels.erase c) ∧
    (n ≤ k →
      getData e c ctx n =
        (some (ctx.buffer.take n),
          { ctx with buffer := ctx.buffer.drop n }, e) ∧
      (ctx.buffer.take n).length = n ∧
      (ctx.buffer.drop n).length = k - n ∧
      ({ ctx with buffer := ctx.buffer.drop n } : ChannelContext).active = true ∧
      c ∈ e.activeChannels) := by
  constructor
  · intro hlt
    refine ⟨?_, rfl, Finset.not_mem_erase c e.activeChannels⟩
    simp only [getData, if_pos (by omega : ctx.buffer.length < n)]
  · intro hle
    refine ⟨?_, ?_, ?_, hactive, hmem⟩
    · simp only [getData, if_neg (by omega : ¬ ctx.buffer.length < n)]
    · rw [List.length_take]; omega
    · rw [List.length_drop, hk]

/-- Claim C7: the roles pair the ack fields asymmetrically.  The server's
`synReceived` builds `my_ack = Packet(peer_syn.uptime, my_syn.uptime)`
(second field its own syn's uptime); the client's `ackReceived`, after
successful validation, builds `my_ack = Packet(peer_syn.uptime,
my_syn.version)` (second field its own syn's version).  Each fills the
payload via `buildAckPayload` and writes the encoded ack. -/
theorem ack_field_pairing :
    (∀ (s : NegState) (ps ms : Packet) (pu mu : Nat),
      s.role = .server → s.ackImpl = true →
      s.peer_syn = some ps → s.my_syn = some ms →
      ps.uptime = some pu → ms.uptime = some mu →
      pu < 2 ^ 32 → mu < 2 ^ 32 →
      (synReceivedHook s).1.my_ack =
          some ⟨ps.uptime, ms.uptime, some (s.gen s.genIdx)⟩ ∧
        (synReceivedHook s).1.writes =
          s.writes ++ [write_ulong pu ++ write_ulong mu ++ s.gen s.genIdx] ∧
        (synReceivedHook s).2 = none) ∧
    (∀ (s : NegState) (psyn ms pa : Packet) (pu mv : Nat),
      s.role = .client → s.ackImpl = true → s.buffer = [] →
      s.peer_syn = some psyn → s.my_syn = some ms → s.peer_ack = some pa →
      pa.uptime = ms.uptime → pa.payload = ms.payload →
      psyn.uptime = some pu → ms.version = some mv →
      pu < 2 ^ 32 → mv < 2 ^ 32 →
      (ackReceivedHook s).1.my_ack =
          some ⟨psyn.uptime, ms.version, some (s.gen s.genIdx)⟩ ∧
        (ackReceivedHook s).1.writes =
          s.writes ++ [write_ulong pu ++ write_ulong mv ++ s.gen s.genIdx] ∧
        (ackReceivedHook s).2 = none) := by
  constructor
  · intro s ps ms pu mu hrole hackI hps hms hpu hmu hbu hbm
    simp only [synReceivedHook, hrole, hps, hms, fillAndWriteAck, hackI,
      writePacket, Packet.encodeBytes, hpu, hmu, if_true]
    rw [if_pos (And.intro hbu hbm)]
    simp [List.append_assoc]
  · intro s psyn ms pa pu mv hrole hackI hbuf hps hms hpa hu hp hpu hmv hbu hbm
    simp only [ackReceivedHook, hrole, hbuf, hpa, hms, hu, hp, hps,
      fillAndWriteAck, hackI, writePacket, Packet.encodeBytes, hpu, hmv,
      List.length_nil, ne_eq, eq_self_iff_true, not_true, if_false, if_true]
    rw [if_pos (And.intro hbu hbm)]
    simp [List.append_assoc]

/-- Witness for `ack_field_pairing` on concrete negotiator states. -/
theorem ack_field_pairing_witness :
    ((synReceivedHook c7_server).1.my_ack =
        some ⟨some 9, some 1, some (genA 0)⟩ ∧
      (synReceivedHook c7_server).1.writes =
        [write_ulong 9 ++ write_ulong 1 ++ genA 0] ∧
      (synReceivedHook c7_server).2 = none) ∧
    ((ackReceivedHook c7_client).1.my_ack =
        some ⟨some 12, some 11, some (genA 0)⟩ ∧
      (ackReceivedHook c7_client).1.writes =
        [write_ulong 12 ++ write_ulong 11 ++ genA 0] ∧
      (ackReceivedHook c7_client).2 = none) :=
  ⟨ack_field_pairing.1 c7_server ⟨some 9, some 3, some (List.replicate 1528 3)⟩
      ⟨some 1, some 2, some (List.replicate 1528 5)⟩ 9 1 rfl rfl rfl rfl rfl rfl
      (by decide) (by decide),
    ack_field_pairing.2 c7_client ⟨some 12, some 0, some (List.replicate 1528 2)⟩
      ⟨some 4, some 11, some (List.replicate 1528 0)⟩
      ⟨some 4, some 0, some (List.replicate 1528 0)⟩ 12 11 rfl rfl rfl rfl rfl
      rfl rfl rfl rfl rfl (by decide) (by decide)⟩

/-- Witness for `getData_exhaustion`: both regimes on a 3-byte buffer. -/
theorem getData_exhaustion_witness :
    (c9_ctx.buffer.length = 3 ∧ c9_ctx.active = true ∧
      1 ∈ c9_encoder.activeChannels) ∧
    (getData c9_encoder 1 c9_ctx 5 =
      (none, { c9_ctx with active := false },
        { c9_encoder with
            activeChannels := c9_encoder.activeChannels.erase 1 })) ∧
    (getData c9_encoder 1 c9_ctx 2 =
      (some (c9_ctx.buffer.take 2),
        { c9_ctx with buffer := c9_ctx.buffer.drop 2 }, c9_encoder)) :=
  ⟨⟨rfl, rfl, by decide⟩,
    ((getData_exhaustion c9_encoder 1 c9_ctx 5 3 rfl rfl (by decide)).1
      (by decide)).1,
    ((getData_exhaustion c9_encoder 1 c9_ctx 2 3 rfl rfl (by decide)).2
      (by decide)).1⟩


/-- The transport writes, the packet slots and the success log are the only
fields `_writePacket` can change; it never touches the core components. -/
theorem writePacket_core (s : NegState) (p : Packet) :
    SameCore s (writePacket s p).1 := by
  cases h : p.encodeBytes <;> simp [writePacket, h, SameCore]

theorem fillAndWriteAck_core (s : NegState) (a : Packet) :
    SameCore s (fillAndWriteAck s a).1 := by
  unfold fillAndWriteAck
  split
  · exact writePacket_core _ _
  · simp [SameCore]

theorem synReceivedHook_core (s : NegState) :
    SameCore s (synReceivedHook s).1 := by
  unfold synReceivedHook
  cases hr : s.role
  · simp [SameCore]
  · cases hps : s.peer_syn with
    | none => cases hms : s.my_syn <;> simp [SameCore]
    | some ps =>
      cases hms : s.my_syn with
      | none => simp [SameCore]
      | some ms => exact fillAndWriteAck_core s _

theorem ackReceivedHook_core (s : NegState) :
    SameCore s (ackReceivedHook s).1 := by
  unfold ackReceivedHook
  cases hr : s.role
  · by_cases hb : s.buffer.length ≠ 0
    · simp [hb, SameCore]
    · simp only [hb, if_false]
      cases hpa : s.peer_ack with
      | none => cases hms : s.my_syn <;> simp [SameCore]
      | some pa =>
        cases hms : s.my_syn with
        | none => simp [SameCore]
        | some ms =>
          by_cases h1 : pa.uptime ≠ ms.uptime
          · simp [h1, SameCore]
          · simp only [h1, if_false]
            by_cases h2 : pa.payload ≠ ms.payload
            · simp [h2, SameCore]
            · simp only [h2, if_false]
              cases hps : s.peer_syn with
              | none => simp [SameCore]
              | some psyn => exact fillAndWriteAck_core s _
  · cases hms : s.my_syn with
    | none => cases hpa : s.peer_ack <;> simp [SameCore]
    | some ms =>
      cases hpa : s.peer_ack with
      | none => simp [SameCore]
      | some pa =>
        by_cases h1 : ms.uptime ≠ pa.uptime
        · simp [h1, SameCore]
        · simp only [h1, if_false]
          by_cases h2 : ms.payload ≠ pa.payload
          · simp [h2, SameCore]
          · simp [h2, SameCore]

/-- `dataReceived` when at least `HANDSHAKE_LENGTH` bytes are buffered at
a completed negotiator only re-notifies the observer. -/
theorem dataReceived_complete (s : NegState) (d : List Nat)
    (hstart : s.started = true) (hps : s.peer_syn.isSome = true)
    (hpa : s.peer_ack.isSome = true) :
    dataReceived s d =
      ({ s with buffer := s.buffer ++ d,
                successes := s.successes ++ [s.buffer ++ d] }, none) := by
  obtain ⟨ps, hps⟩ := Option.isSome_iff_exists.mp hps
  obtain ⟨pa, hpa⟩ := Option.isSome_iff_exists.mp hpa
  simp [dataReceived, hstart, process, processAck, hps, hpa, finishSuccess]

/-- `dataReceived` of too few bytes to complete the pending packet only
appends to the buffer. -/
theorem dataReceived_append_only (s : NegState) (d : List Nat)
    (hstart : s.started = true)
    (hinc : s.peer_syn = none ∨ s.peer_ack = none)
    (hlen : (s.buffer ++ d).length < HANDSHAKE_LENGTH) :
    dataReceived s d = ({ s with buffer := s.buffer ++ d }, none) := by
  cases hps : s.peer_syn with
  | none =>
    rw [dataReceived, if_pos hstart, process]
    simp only [hps]
    rw [if_pos hlen]
  | some p =>
    have hpa : s.peer_ack = none := by
      rcases hinc with h | h
      · rw [hps] at h; exact absurd h (by simp)
      · exact h
    rw [dataReceived, if_pos hstart, process]
    simp only [hps, processAck, hpa]
    rw [if_pos hlen]

/-- A success notification can only be appended by `processAck` when both
peer packets are present in the resulting state. -/
theorem processAck_success_shape (s : NegState) (hps : s.peer_syn.isSome = true) :
    (processAck s).1.successes.length > s.successes.length →
    (processAck s).1.peer_syn.isSome = true ∧
      (processAck s).1.peer_ack.isSome = true := by
  intro hgt
  cases hpa : s.peer_ack with
  | some pa => simp [processAck, hpa, finishSuccess, hps]
  | none =>
    by_cases hlen : s.buffer.length < HANDSHAKE_LENGTH
    · rw [processAck, hpa] at hgt
      simp only [if_pos hlen] at hgt
      omega
    · rw [processAck, hpa] at hgt ⊢
      simp only [if_neg hlen] at hgt ⊢
      rcases hhook : ackReceivedHook
          { s with peer_ack := some (decodePacket s.buffer),
                   buffer := s.buffer.drop HANDSHAKE_LENGTH } with ⟨s2, e⟩
      have hcore := ackReceivedHook_core
        { s with peer_ack := some (decodePacket s.buffer),
                 buffer := s.buffer.drop HANDSHAKE_LENGTH }
      rw [hhook] at hcore
      obtain ⟨hsucc, hsyn, hack, _, _⟩ := hcore
      simp only at hsucc hsyn hack
      cases e with
      | some err =>
        rw [hhook] at hgt
        simp only at hgt
        rw [hsucc] at hgt
        simp at hgt
      | none =>
        simp [finishSuccess, hsyn, hack, hps]

/-- A success notification can only be appended by `_process` when both
peer packets are present in the resulting state. -/
theorem process_success_shape (s : NegState) :
    (process s).1.successes.length > s.successes.length →
    (process s).1.peer_syn.isSome = true ∧
      (process s).1.peer_ack.isSome = true := by
  intro hgt
  cases hps : s.peer_syn with
  | some p =>
    rw [process, hps] at hgt ⊢
    exact processAck_success_shape s (by simp [hps]) hgt
  | none =>
    by_cases hlen : s.buffer.length < HANDSHAKE_LENGTH
    · rw [process, hps] at hgt
      simp only [if_pos hlen] at hgt
      omega
    · rw [process, hps] at hgt ⊢
      simp only [if_neg hlen] at hgt ⊢
      rcases hhook : synReceivedHook
          { s with peer_syn := some (decodePacket s.buffer),
                   buffer := s.buffer.drop HANDSHAKE_LENGTH } with ⟨s2, e⟩
      have hcore := synReceivedHook_core
        { s with peer_syn := some (decodePacket s.buffer),
                 buffer := s.buffer.drop HANDSHAKE_LENGTH }
      rw [hhook] at hcore
      obtain ⟨hsucc, hsyn, hack, _, _⟩ := hcore
      simp only at hsucc hsyn hack
      cases e with
      | some err =>
        rw [hhook] at hgt
        simp only at hgt
        rw [hsucc] at hgt
        simp at hgt
      | none =>
        rw [hhook] at hgt
        simp only at hgt ⊢
        have h2 : s2.peer_syn.isSome = true := by rw [hsyn]; simp
        have hres := processAck_success_shape s2 h2
        rw [← hsucc] at hgt
        exact hres hgt

/-- Claim C2 (amended): `handshakeSuccess` is notified only when both peer
packets have been decoded; but it is not latched — on a negotiator whose
handshake has already completed, every further `dataReceived` call
notifies the observer again. -/
theorem handshake_success_conditions (s : NegState) (d : List Nat)
    (hstart : s.started = true) :
    ((dataReceived s d).1.successes.length > s.successes.length →
      (dataReceived s d).1.peer_syn.isSome = true ∧
        (dataReceived s d).1.peer_ack.isSome = true) ∧
    (s.peer_syn.isSome = true → s.peer_ack.isSome = true →
      dataReceived s d =
        ({ s with buffer := s.buffer ++ d,
                  successes := s.successes ++ [s.buffer ++ d] }, none)) := by
  constructor
  · intro hgt
    rw [dataReceived, if_pos hstart] at hgt ⊢
    exact process_success_shape { s with buffer := s.buffer ++ d } hgt
  · exact dataReceived_complete s d hstart

/-- `start(0, 0)` on the shipped server, evaluated. -/
theorem c2_step1 : c2_r1 = (c2_S1, none) := rfl

/-- A server in syn-waiting state receiving one full packet: decodes it,
answers with its ack (pairing `Packet(peer uptime, own syn uptime)`) and
waits for the peer ack. -/
theorem server_syn_step (s : NegState) (u v mu : Nat) (pl : List Nat) (ms : Packet)
    (hrole : s.role = .server) (hackI : s.ackImpl = true)
    (hstart : s.started = true) (hbuf : s.buffer = [])
    (hps : s.peer_syn = none) (hpa : s.peer_ack = none)
    (hms : s.my_syn = some ms) (hmsu : ms.uptime = some mu)
    (hu : u < 2 ^ 32) (hv : v < 2 ^ 32) (hmu : mu < 2 ^ 32)
    (hl : pl.length = 1528) :
    dataReceived s (write_ulong u ++ write_ulong v ++ pl) =
      ({ s with peer_syn := some ⟨some u, some v, some pl⟩, buffer := [],
                my_ack := some ⟨some u, some mu, some (s.gen s.genIdx)⟩,
                genIdx := s.genIdx + 1,
                writes := s.writes ++
                  [write_ulong u ++ write_ulong mu ++ s.gen s.genIdx] },
        none) := by
  have hlen : ¬ (write_ulong u ++ write_ulong v ++ pl).length < HANDSHAKE_LENGTH := by
    rw [wire_length, hl]; decide
  have hdec := decode_wire0 u v pl hu hv hl
  have hdrop := drop_wire0 u v pl hl
  have hpos : 0 < HANDSHAKE_LENGTH := by decide
  rw [dataReceived, if_pos hstart, process]
  simp only [hbuf, List.nil_append, hps]
  rw [if_neg hlen]
  simp only [hdec, hdrop]
  simp only [synReceivedHook, hrole, hms, hmsu]
  simp only [fillAndWriteAck, hackI, if_true, writePacket, Packet.encodeBytes]
  rw [if_pos (And.intro hu hmu)]
  simp only [processAck, hpa, List.length_nil, hpos, if_true]

/-- A server in ack-waiting state receiving a full packet that correctly
echoes its own syn uptime and payload: validation succeeds and the
observer is notified with the (empty) trailing bytes. -/
theorem server_ack_step (s : NegState) (u v : Nat) (pl : List Nat) (ms : Packet)
    (hrole : s.role = .server) (hstart : s.started = true)
    (hbuf : s.buffer = []) (ps : Packet) (hps : s.peer_syn = some ps)
    (hpa : s.peer_ack = none) (hms : s.my_syn = some ms)
    (hmsu : ms.uptime = some u) (hmsp : ms.payload = some pl)
    (hu : u < 2 ^ 32) (hv : v < 2 ^ 32) (hl : pl.length = 1528) :
    dataReceived s (write_ulong u ++ write_ulong v ++ pl) =
      ({ s with peer_ack := some ⟨some u, some v, some pl⟩, buffer := [],
                successes := s.successes ++ [[]] }, none) := by
  have hlen : ¬ (write_ulong u ++ write_ulong v ++ pl).length < HANDSHAKE_LENGTH := by
    rw [wire_length, hl]; decide
  have hdec := decode_wire0 u v pl hu hv hl
  have hdrop := drop_wire0 u v pl hl
  rw [dataReceived, if_pos hstart, process]
  simp only [hbuf, List.nil_append, hps]
  rw [processAck]
  simp only [hpa]
  rw [if_neg hlen]
  simp only [hdec, hdrop]
  simp only [ackReceivedHook, hrole, hms, hmsu, hmsp]
  simp only [ne_eq, eq_self_iff_true, not_true, if_false]
  simp only [finishSuccess]

/-- Receiving the full client syn, evaluated. -/
theorem c2_step2 : c2_r2 = (c2_S2, none) := by
  have h0 : c2_r2 = dataReceived c2_S1 c2_syn := by rw [c2_r2, c2_step1]
  have hw : c2_syn = write_ulong 9 ++ write_ulong 0 ++ List.replicate 1528 3 := rfl
  rw [h0, hw, server_syn_step c2_S1 9 0 0 (List.replicate 1528 3)
    ⟨some 0, some 0, some (genA 0)⟩ rfl rfl rfl rfl rfl rfl rfl rfl
    (by norm_num) (by norm_num) (by norm_num) (List.length_replicate 1528 3)]
  rfl

/-- Receiving a valid client ack, evaluated: the handshake completes. -/
theorem c2_step3 : c2_r3 = (c2_S3, none) := by
  have h0 : c2_r3 = dataReceived c2_S2 c2_ack := by rw [c2_r3, c2_step2]
  have hw : c2_ack = write_ulong 0 ++ write_ulong 0 ++ genA 0 := rfl
  rw [h0, hw, server_ack_step c2_S2 0 0 (genA 0)
    ⟨some 0, some 0, some (genA 0)⟩ rfl rfl rfl
    ⟨some 9, some 0, some (List.replicate 1528 3)⟩ rfl rfl rfl rfl rfl
    (by norm_num) (by norm_num)
    (by rw [show genA 0 = List.replicate 1528 5 from rfl, List.length_replicate])]
  rfl

/-- Witness for `handshake_success_conditions` on a concrete completed
negotiator. -/
theorem handshake_success_conditions_witness :
    c2_S3.started = true ∧ c2_S3.peer_syn.isSome = true ∧
      c2_S3.peer_ack.isSome = true ∧
      dataReceived c2_S3 [] =
        ({ c2_S3 with
             buffer := c2_S3.buffer ++ [],
             successes := c2_S3.successes ++ [c2_S3.buffer ++ []] }, none) :=
  ⟨rfl, rfl, rfl, (handshake_success_conditions c2_S3 [] rfl).2 rfl rfl⟩

/-- Claim C2, as stated, is false: after a successful server handshake
(one success notification), one further `dataReceived` call produces a
second `handshakeSuccess` notification. -/
theorem handshake_success_called_twice :
    c2_r1.2 = none ∧ c2_r2.2 = none ∧ c2_r3.2 = none ∧
      c2_r3.1.successes.length = 1 ∧ c2_r4.2 = none ∧
      c2_r4.1.successes.length = 2 := by
  have h4 : c2_r4 =
      ({ c2_S3 with
           buffer := c2_S3.buffer ++ [],
           successes := c2_S3.successes ++ [c2_S3.buffer ++ []] }, none) := by
    rw [c2_r4, c2_step3]
    exact dataReceived_complete c2_S3 [] rfl rfl rfl
  refine ⟨by rw [c2_step1], by rw [c2_step2], by rw [c2_step3],
    by rw [c2_step3]; rfl, by rw [h4], by rw [h4]; rfl⟩

/-- A client negotiator that decodes the peer ack while unconsumed bytes
remain raises the generic trailing-data `HandshakeError` before any
verification check runs. -/
theorem client_trailing_helper (s : NegState) (d : List Nat)
    (hrole : s.role = .client) (hstart : s.started = true)
    (hps : s.peer_syn.isSome = true) (hpa : s.peer_ack = none)
    (hlen : HANDSHAKE_LENGTH < (s.buffer ++ d).length) :
    (dataReceived s d).2 =
        some (HSError.handshakeError "Unexpected trailing data after peer ack") ∧
      (dataReceived s d).1.successes = s.successes := by
  obtain ⟨ps, hps⟩ := Option.isSome_iff_exists.mp hps
  rw [dataReceived, if_pos hstart, process]
  simp only [hps]
  rw [processAck]
  simp only [hpa]
  rw [if_neg (not_lt.mpr (le_of_lt hlen))]
  simp only [ackReceivedHook, hrole]
  rw [if_pos (by rw [List.length_drop]; omega :
    ((s.buffer ++ d).drop HANDSHAKE_LENGTH).length ≠ 0)]
  exact ⟨rfl, rfl⟩

/-- Claim C4 (amended): when unconsumed bytes remain in the client's
buffer at the moment the peer ack has been decoded, negotiation raises the
generic `HandshakeError` (message "Unexpected trailing data after peer
ack"), not the `VerificationError` subtype, and no success is notified. -/
theorem client_trailing_raises_handshake_error (s : NegState) (d : List Nat)
    (hrole : s.role = .client) (hstart : s.started = true)
    (hps : s.peer_syn.isSome = true) (hpa : s.peer_ack = none)
    (hlen : HANDSHAKE_LENGTH < (s.buffer ++ d).length) :
    (dataReceived s d).2 =
        some (HSError.handshakeError "Unexpected trailing data after peer ack") ∧
      (dataReceived s d).1.successes = s.successes :=
  client_trailing_helper s d hrole hstart hps hpa hlen

/-- Witness for `client_trailing_raises_handshake_error` on a concrete
client state and a 1537-byte delivery. -/
theorem client_trailing_raises_handshake_error_witness :
    (dataReceived c4_state c4_data).2 =
        some (HSError.handshakeError "Unexpected trailing data after peer ack") ∧
      (dataReceived c4_state c4_data).1.successes = c4_state.successes :=
  client_trailing_raises_handshake_error c4_state c4_data rfl rfl rfl rfl
    (by rw [show c4_state.buffer = [] from rfl, List.nil_append, c4_data,
          List.length_append, wire_length, List.length_replicate]
        decide)

/-- Claim C4, as stated, is false: with trailing bytes present the raised
error is the generic `HandshakeError`, which is not of the
`VerificationError` subtype. -/
theorem trailing_not_verification :
    HANDSHAKE_LENGTH < (c4_state.buffer ++ c4_data).length ∧
      (dataReceived c4_state c4_data).2 =
        some (HSError.handshakeError "Unexpected trailing data after peer ack") ∧
      Option.map HSError.isVerification (dataReceived c4_state c4_data).2 =
        some false := by
  have hlen : HANDSHAKE_LENGTH < (c4_state.buffer ++ c4_data).length := by
    rw [show c4_state.buffer = [] from rfl, List.nil_append, c4_data,
      List.length_append, wire_length, List.length_replicate]
    decide
  have h := client_trailing_helper c4_state c4_data rfl rfl rfl rfl hlen
  exact ⟨hlen, h.1, by rw [h.1]; rfl⟩

/-- Claim C3 (amended): an ack whose decoded uptime or payload does not
echo the negotiator's own syn is rejected with a `VerificationError` and
the observer is never notified — for the client provided no trailing bytes
accompany it (otherwise the trailing-data `HandshakeError` fires first),
for the server unconditionally. -/
theorem ack_mismatch_rejected (s : NegState) (d : List Nat) (ms : Packet)
    (hstart : s.started = true) (hps : s.peer_syn.isSome = true)
    (hpa : s.peer_ack = none) (hms : s.my_syn = some ms)
    (hlen : HANDSHAKE_LENGTH ≤ (s.buffer ++ d).length)
    (hex : s.role = .client → (s.buffer ++ d).length = HANDSHAKE_LENGTH)
    (hmm : (decodePacket (s.buffer ++ d)).uptime ≠ ms.uptime ∨
           (decodePacket (s.buffer ++ d)).payload ≠ ms.payload) :
    (∃ m, (dataReceived s d).2 = some (HSError.verificationError m)) ∧
      (dataReceived s d).1.successes = s.successes := by
  obtain ⟨ps, hps⟩ := Option.isSome_iff_exists.mp hps
  rw [dataReceived, if_pos hstart, process]
  simp only [hps]
  rw [processAck]
  simp only [hpa]
  rw [if_neg (not_lt.mpr hlen)]
  cases hrole : s.role with
  | client =>
    have hteq : (s.buffer ++ d).length = HANDSHAKE_LENGTH := hex hrole
    simp only [ackReceivedHook, hrole]
    rw [if_neg (by rw [List.length_drop, hteq]; simp)]
    simp only [hms]
    by_cases hup : (decodePacket (s.buffer ++ d)).uptime ≠ ms.uptime
    · rw [if_pos hup]
      exact ⟨⟨_, rfl⟩, rfl⟩
    · rw [if_neg hup]
      have hpl : (decodePacket (s.buffer ++ d)).payload ≠ ms.payload := by
        rcases hmm with h | h
        · exact absurd h hup
        · exact h
      rw [if_pos hpl]
      exact ⟨⟨_, rfl⟩, rfl⟩
  | server =>
    simp only [ackReceivedHook, hrole]
    simp only [hms]
    by_cases hup : ms.uptime ≠ (decodePacket (s.buffer ++ d)).uptime
    · rw [if_pos hup]
      exact ⟨⟨_, rfl⟩, rfl⟩
    · rw [if_neg hup]
      have hpl : ms.payload ≠ (decodePacket (s.buffer ++ d)).payload := by
        rcases hmm with h | h
        · exact absurd (Ne.symm h) hup
        · exact Ne.symm h
      rw [if_pos hpl]
      exact ⟨⟨_, rfl⟩, rfl⟩

/-- Witness for `ack_mismatch_rejected`: a client receiving an exactly
1536-byte ack whose payload does not echo its syn. -/
theorem ack_mismatch_rejected_witness :
    (∃ m, (dataReceived c3_state c3_exact_data).2 =
        some (HSError.verificationError m)) ∧
      (dataReceived c3_state c3_exact_data).1.successes =
        c3_state.successes :=
  ack_mismatch_rejected c3_state c3_exact_data
    ⟨some 0, some 0, some (List.replicate 1528 0)⟩ rfl rfl rfl rfl
    (by rw [show c3_state.buffer = [] from rfl, List.nil_append,
          c3_exact_data, wire_length, List.length_replicate]
        decide)
    (fun _ => by
      rw [show c3_state.buffer = [] from rfl, List.nil_append,
        c3_exact_data, wire_length, List.length_replicate]
      decide)
    (Or.inr (by
      rw [show c3_state.buffer = [] from rfl, List.nil_append,
        c3_exact_data, decode_wire0 0 0 _ (by norm_num) (by norm_num)
          (List.length_replicate 1528 1)]
      simp only [ne_eq, Option.some.injEq]
      exact fun hh => replicate_payload_ne hh))

/-- Claim C3, as stated, is false: when the mismatched ack arrives together
with one extra byte, the client raises the trailing-data `HandshakeError`
— not a `VerificationError` — even though the payload differs. -/
theorem mismatch_with_trailing_not_verification :
    c3_state.my_syn = some ⟨some 0, some 0, some (List.replicate 1528 0)⟩ ∧
      (decodePacket (c3_state.buffer ++ c3_data)).payload ≠
        some (List.replicate 1528 0) ∧
      (dataReceived c3_state c3_data).2 =
        some (HSError.handshakeError "Unexpected trailing data after peer ack") ∧
      Option.map HSError.isVerification (dataReceived c3_state c3_data).2 =
        some false := by
  have hb : c3_state.buffer = [] := rfl
  have hdec : decodePacket (c3_state.buffer ++ c3_data) =
      ⟨some 0, some 0, some (List.replicate 1528 1)⟩ := by
    rw [hb, List.nil_append, c3_data]
    exact decode_wire 0 0 _ [7] (by norm_num) (by norm_num)
      (List.length_replicate 1528 1)
  have hlen : HANDSHAKE_LENGTH < (c3_state.buffer ++ c3_data).length := by
    rw [hb, List.nil_append, c3_data, List.length_append, wire_length,
      List.length_replicate]
    decide
  have h := client_trailing_helper c3_state c3_data rfl rfl rfl rfl hlen
  refine ⟨rfl, ?_, h.1, by rw [h.1]; rfl⟩
  rw [hdec]
  simp only [ne_eq, Option.some.injEq]
  exact fun hh => replicate_payload_ne hh

theorem processAck_started (s : NegState) :
    (processAck s).1.started = s.started := by
  rw [processAck]
  cases hpa : s.peer_ack with
  | some pa => rfl
  | none =>
    by_cases hlen : s.buffer.length < HANDSHAKE_LENGTH
    · simp only [if_pos hlen]
    · simp only [if_neg hlen]
      rcases hhook : ackReceivedHook
          { s with peer_ack := some (decodePacket s.buffer),
                   buffer := s.buffer.drop HANDSHAKE_LENGTH } with ⟨s2, e⟩
      have hcore := ackReceivedHook_core
        { s with peer_ack := some (decodePacket s.buffer),
                 buffer := s.buffer.drop HANDSHAKE_LENGTH }
      rw [hhook] at hcore
      obtain ⟨-, -, -, hst, -⟩ := hcore
      simp only at hst
      cases e with
      | some err => exact hst
      | none => exact hst

theorem process_started (s : NegState) :
    (process s).1.started = s.started := by
  rw [process]
  cases hps : s.peer_syn with
  | some p => exact processAck_started s
  | none =>
    by_cases hlen : s.buffer.length < HANDSHAKE_LENGTH
    · simp only [if_pos hlen]
    · simp only [if_neg hlen]
      rcases hhook : synReceivedHook
          { s with peer_syn := some (decodePacket s.buffer),
                   buffer := s.buffer.drop HANDSHAKE_LENGTH } with ⟨s2, e⟩
      have hcore := synReceivedHook_core
        { s with peer_syn := some (decodePacket s.buffer),
                 buffer := s.buffer.drop HANDSHAKE_LENGTH }
      rw [hhook] at hcore
      obtain ⟨-, -, -, hst, -⟩ := hcore
      simp only at hst
      cases e with
      | some err => exact hst
      | none => exact (processAck_started s2).trans hst

theorem dataReceived_started (s : NegState) (d : List Nat) :
    (dataReceived s d).1.started = s.started := by
  rw [dataReceived]
  by_cases h : s.started = true
  · rw [if_pos h]
    exact process_started _
  · rw [if_neg h]

theorem processAck_buffer_nil (s : NegState) (hbuf : s.buffer = []) :
    (processAck s).1.buffer = [] := by
  rw [processAck]
  cases hpa : s.peer_ack with
  | some pa => simpa [finishSuccess] using hbuf
  | none =>
    rw [if_pos (by rw [hbuf]; decide)]
    exact hbuf

/-- When exactly one packet completes in the buffer, every outcome of the
processing step leaves the buffer empty. -/
theorem dataReceived_buffer_full (s : NegState) (d : List Nat)
    (hstart : s.started = true)
    (hinc : s.peer_syn = none ∨ s.peer_ack = none)
    (hfull : (s.buffer ++ d).length = HANDSHAKE_LENGTH) :
    (dataReceived s d).1.buffer = [] := by
  have hdropnil : (s.buffer ++ d).drop HANDSHAKE_LENGTH = [] :=
    List.drop_eq_nil_of_le (by rw [hfull])
  have hnlt : ¬ (s.buffer ++ d).length < HANDSHAKE_LENGTH := by
    rw [hfull]; exact lt_irrefl _
  rw [dataReceived, if_pos hstart, process]
  cases hps : s.peer_syn with
  | none =>
    simp only [hps]
    rw [if_neg hnlt]
    simp only [hdropnil]
    rcases hhook : synReceivedHook
        { s with peer_syn := some (decodePacket (s.buffer ++ d)),
                 buffer := [] } with ⟨s2, e⟩
    have hcore := synReceivedHook_core
      { s with peer_syn := some (decodePacket (s.buffer ++ d)), buffer := [] }
    rw [hhook] at hcore
    obtain ⟨-, -, -, -, hb⟩ := hcore
    simp only at hb
    cases e with
    | some err => exact hb
    | none => exact processAck_buffer_nil s2 hb
  | some p =>
    have hpa : s.peer_ack = none := by
      rcases hinc with h | h
      · rw [hps] at h; exact absurd h (by simp)
      · exact h
    simp only [hps]
    rw [processAck]
    simp only [hpa]
    rw [if_neg hnlt]
    simp only [hdropnil]
    rcases hhook : ackReceivedHook
        { s with peer_syn := some p,
                 peer_ack := some (decodePacket (s.buffer ++ d)),
                 buffer := [] } with ⟨s2, e⟩
    have hcore := ackReceivedHook_core
      { s with peer_syn := some p,
               peer_ack := some (decodePacket (s.buffer ++ d)), buffer := [] }
    rw [hhook] at hcore
    obtain ⟨-, -, -, -, hb⟩ := hcore
    simp only at hb
    cases e with
    | some err => exact hb
    | none => simpa [finishSuccess] using hb

/-- Delivering any chunk sequence to a completed negotiator only grows the
buffer and re-notifies the observer; erased, it is a plain append. -/
theorem deliver_complete (s : NegState) (chunks : List (List Nat))
    (hstart : s.started = true) (hps : s.peer_syn.isSome = true)
    (hpa : s.peer_ack.isSome = true) :
    eraseSuccesses (deliver s chunks) =
      ({ s with buffer := s.buffer ++ chunks.flatten, successes := [] }, none) := by
  induction chunks generalizing s with
  | nil => simp [deliver, eraseSuccesses]
  | cons c cs ih =>
    simp only [deliver, dataReceived_complete s c hstart hps hpa]
    have hih := ih
      { s with buffer := s.buffer ++ c,
               successes := s.successes ++ [s.buffer ++ c] } hstart hps hpa
    rw [hih]
    simp [List.append_assoc]

/-- Delivering chunks that contain no bytes does not change the erased
state of a started negotiator with an empty buffer. -/
theorem deliver_nil_join (s : NegState) (chunks : List (List Nat))
    (hstart : s.started = true) (hbuf : s.buffer = [])
    (hnil : chunks.flatten = []) :
    eraseSuccesses (deliver s chunks) = eraseSuccesses (s, none) := by
  induction chunks generalizing s with
  | nil => rfl
  | cons c cs ih =>
    rw [List.flatten_cons] at hnil
    obtain ⟨hc, hcs⟩ := List.append_eq_nil.mp hnil
    subst hc
    by_cases hcomp : s.peer_syn.isSome = true ∧ s.peer_ack.isSome = true
    · simp only [deliver, dataReceived_complete s [] hstart hcomp.1 hcomp.2]
      have hih := ih
        { s with buffer := s.buffer ++ [],
                 successes := s.successes ++ [s.buffer ++ []] } hstart
        (by simp [hbuf]) hcs
      rw [hih]
      simp [eraseSuccesses]
    · have hinc : s.peer_syn = none ∨ s.peer_ack = none := by
        rcases not_and_or.mp hcomp with h | h
        · exact Or.inl (by simpa using h)
        · exact Or.inr (by simpa using h)
      simp only [deliver, dataReceived_append_only s [] hstart hinc
        (by rw [hbuf]; decide)]
      have hih := ih { s with buffer := s.buffer ++ [] } hstart
        (by simp [hbuf]) hcs
      rw [hih]
      simp [eraseSuccesses]

/-- Splitting the bytes that complete the pending packet across any number
of `dataReceived` calls is, erased, the same as one call. -/
theorem deliver_eq_single_incomplete (chunks : List (List Nat)) (s : NegState)
    (hstart : s.started = true)
    (hinc : s.peer_syn = none ∨ s.peer_ack = none)
    (hlt : s.buffer.length < HANDSHAKE_LENGTH)
    (hsum : s.buffer.length + chunks.flatten.length = HANDSHAKE_LENGTH) :
    eraseSuccesses (deliver s chunks) =
      eraseSuccesses (dataReceived s chunks.flatten) := by
  induction chunks generalizing s with
  | nil =>
    exfalso
    simp only [List.flatten_nil, List.length_nil] at hsum
    omega
  | cons c cs ih =>
    by_cases hc : (s.buffer ++ c).length < HANDSHAKE_LENGTH
    · simp only [deliver, dataReceived_append_only s c hstart hinc hc]
      have hih := ih { s with buffer := s.buffer ++ c } hstart hinc
        (by simpa using hc)
        (by simp only [List.flatten_cons, List.length_append] at hsum ⊢
            omega)
      rw [hih]
      have hX : ({ s with buffer := s.buffer ++ c } : NegState).started = true :=
        hstart
      rw [dataReceived, dataReceived, if_pos hX, if_pos hstart]
      congr 1
      simp [List.append_assoc]
    · have hcs : cs.flatten = [] := by
        have h1 := hsum
        simp only [List.flatten_cons, List.length_append] at h1
        rw [List.length_append] at hc
        exact List.length_eq_zero.mp (by omega)
      have hjoin : (c :: cs).flatten = c := by
        rw [List.flatten_cons, hcs, List.append_nil]
      have hfull : (s.buffer ++ c).length = HANDSHAKE_LENGTH := by
        simp only [List.flatten_cons, hcs, List.append_nil] at hsum
        rw [List.length_append]
        omega
      rw [hjoin]
      rw [deliver]
      rcases hdr : dataReceived s c with ⟨s1, e1⟩
      cases e1 with
      | some err => rfl
      | none =>
        have hst1 : s1.started = true := by
          have h := dataReceived_started s c
          rw [hdr] at h
          exact h.trans hstart
        have hbn : s1.buffer = [] := by
          have h := dataReceived_buffer_full s c hstart hinc hfull
          rw [hdr] at h
          exact h
        exact deliver_nil_join s1 cs hst1 hbn hcs

/-- Claim C6: for every started negotiator, delivering the bytes required
to complete the pending handshake packet split across arbitrarily many
`dataReceived` calls leaves the negotiator in the same final state as one
single call — same peer packets, buffer, transport writes, and every other
component except the count of success notifications (which the claim does
not cover). -/
theorem split_delivery_equivalent (s : NegState) (chunks : List (List Nat))
    (hstart : s.started = true) (hlt : s.buffer.length < HANDSHAKE_LENGTH)
    (hsum : s.buffer.length + chunks.flatten.length = HANDSHAKE_LENGTH) :
    eraseSuccesses (deliver s chunks) =
      eraseSuccesses (dataReceived s chunks.flatten) := by
  by_cases hcomp : s.peer_syn.isSome = true ∧ s.peer_ack.isSome = true
  · rw [deliver_complete s chunks hstart hcomp.1 hcomp.2,
      dataReceived_complete s chunks.flatten hstart hcomp.1 hcomp.2]
    rfl
  · have hinc : s.peer_syn = none ∨ s.peer_ack = none := by
      rcases not_and_or.mp hcomp with h | h
      · exact Or.inl (by simpa using h)
      · exact Or.inr (by simpa using h)
    exact deliver_eq_single_incomplete chunks s hstart hinc hlt hsum

/-- Witness for `split_delivery_equivalent`: one syn packet delivered to a
freshly started server in two chunks of 700 and 836 bytes. -/
theorem split_delivery_equivalent_witness :
    c2_S1.started = true ∧ c2_S1.buffer.length < HANDSHAKE_LENGTH ∧
      c2_S1.buffer.length +
          ([c2_syn.take 700, c2_syn.drop 700] : List (List Nat)).flatten.length =
        HANDSHAKE_LENGTH ∧
      eraseSuccesses (deliver c2_S1 [c2_syn.take 700, c2_syn.drop 700]) =
        eraseSuccesses
          (dataReceived c2_S1 ([c2_syn.take 700, c2_syn.drop 700]).flatten) :=
  have hjoin : ([c2_syn.take 700, c2_syn.drop 700] : List (List Nat)).flatten.length =
      HANDSHAKE_LENGTH := by
    simp only [List.flatten_cons, List.flatten_nil, List.append_nil,
      List.take_append_drop]
    rw [c2_syn, wire_length, List.length_replicate]
    decide
  have hsum : c2_S1.buffer.length +
      ([c2_syn.take 700, c2_syn.drop 700] : List (List Nat)).flatten.length =
        HANDSHAKE_LENGTH := by
    rw [show c2_S1.buffer = [] from rfl, hjoin]
    decide
  ⟨rfl, by decide, hsum,
    split_delivery_equivalent c2_S1 _ rfl (by decide) hsum⟩

end RTMPy
